import Mathlib

/-!
# WebCaht: message store and room relay of `Server.js`

A shallow embedding of the storage helpers (`saveMessage`, `getMessages`,
`clearMessages`, `connectDatabase`) and of the request and socket handlers of
`src/Server.js`, followed by the properties proved about them.

Conventions of the embedding

* The two module-level variables `MessageModel` and `inMemoryMessages` are the
  fields of `State`; every helper and handler takes the state and returns the
  new one (the `async` helpers run without interruption up to their first
  `await`, so the in-memory branch of each is one atomic step).
* Field types follow `MessageSchema`: `chatId`, `sender`, `text` and `time` are
  strings, `createdAt` is a date (milliseconds since the epoch, a `Nat`).  A
  field that a JavaScript object may lack is an `Option`.
* What a handler reads from its surroundings (`new Date()`, the formatted local
  time, the environment variable, the outcome of `mongoose.connect`) is an
  explicit argument.
* `mongoose` and `socket.io` are libraries, not part of the repository.  The
  collection behind `MessageModel` is a list of documents with the three calls
  the source makes on it; an emission records the addressing (`io.to(room)` or
  `socket.to(room)`), the event name and the arguments passed to `emit`.
  Failures of the database after a successful connection are not modelled.
-/

namespace WebCaht

/-! ## Data model -/

/-- A message object as built by the handlers (lines 77-83 and 96-102).
`createdAt` is `none` when the object has no such field. -/
structure Message where
  chatId : String
  sender : String
  text : String
  time : String
  createdAt : Option Nat
deriving DecidableEq, Repr

/-- The body of `POST /messages` and the payload of `send_message`:
`{chatId, sender, text, time?}`; `time` is `none` when the field is omitted. -/
structure Payload where
  chatId : String
  sender : String
  text : String
  time : Option String
deriving DecidableEq, Repr

/-- The payload of a `typing` event: only `chatId` is read by the server, the
remaining fields are carried along untouched. -/
structure TypingData where
  chatId : String
  fields : List (String × String)
deriving DecidableEq, Repr

/-- What the handlers read from the system clock: `new Date()` as milliseconds
since the epoch, and `toLocaleTimeString` with two-digit hour and minute. -/
structure Clock where
  now : Nat
  localHHMM : String
deriving DecidableEq, Repr

/-- A document of the `Message` collection (`MessageSchema`, lines 37-43):
`createdAt` always has a value because the schema gives it a default. -/
structure Doc where
  chatId : String
  sender : String
  text : String
  time : String
  createdAt : Nat
deriving DecidableEq, Repr

/-- The plain object of a document, as returned by `.lean()` and as serialised
for a response or an emission. -/
def Doc.toMessage (d : Doc) : Message :=
  { chatId := d.chatId, sender := d.sender, text := d.text, time := d.time,
    createdAt := some d.createdAt }

/-- Identifier of a socket connection. -/
abbrev SocketId := Nat

/-- The server state: `MessageModel` is `none` while the variable is `null`
and holds the contents of the collection once the model exists;
`inMemoryMessages` is the array of line 26; `rooms` is the membership kept by
`socket.io` (which socket has joined which room). -/
structure State where
  MessageModel : Option (List Doc)
  inMemoryMessages : List Message
  rooms : List (SocketId × String)
deriving DecidableEq, Repr

/-- The state when the module has been loaded: `MessageModel = null`,
`inMemoryMessages = []`, no socket connected. -/
def State.initial : State :=
  { MessageModel := none, inMemoryMessages := [], rooms := [] }

/-! ## The document store behind `MessageModel` -/

/-- `MessageModel.create(message)`: the schema default `Date.now` fills
`createdAt` when the object has none. -/
def Doc.create (clk : Clock) (message : Message) : Doc :=
  { chatId := message.chatId, sender := message.sender, text := message.text,
    time := message.time, createdAt := message.createdAt.getD clk.now }

/-- `MessageModel.find({ chatId }).sort({ createdAt: 1 })`. -/
def findSorted (coll : List Doc) (chatId : String) : List Doc :=
  (coll.filter (fun d => decide (d.chatId = chatId))).insertionSort
    (fun a b => a.createdAt ≤ b.createdAt)

/-- `MessageModel.deleteMany({ chatId })`. -/
def deleteMany (coll : List Doc) (chatId : String) : List Doc :=
  coll.filter (fun d => decide (d.chatId ≠ chatId))

/-! ## Storage helpers (lines 28-64) -/

/-- `connectDatabase` (lines 28-48), at its completion.  `connect uri` is the
outcome of `mongoose.connect`: `some coll` when it resolves (with the contents
of the collection), `none` when it rejects.  An unset or empty `MONGODB_URI`
is falsy and returns at once. -/
def connectDatabase (MONGODB_URI : Option String) (connect : String → Option (List Doc))
    (s : State) : State :=
  match MONGODB_URI with
  | none => s
  | some uri =>
    if uri = "" then s
    else
      match connect uri with
      | some coll => { s with MessageModel := some coll }
      | none => s

/-- `saveMessage` (lines 52-56): returns the new state and the value the
promise resolves to. -/
def saveMessage (clk : Clock) (s : State) (message : Message) : State × Message :=
  match s.MessageModel with
  | some coll =>
    let doc := Doc.create clk message
    ({ s with MessageModel := some (coll ++ [doc]) }, doc.toMessage)
  | none =>
    ({ s with inMemoryMessages := s.inMemoryMessages ++ [message] }, message)

/-- `getMessages` (lines 57-60). -/
def getMessages (s : State) (chatId : String) : List Message :=
  match s.MessageModel with
  | some coll => (findSorted coll chatId).map Doc.toMessage
  | none => s.inMemoryMessages.filter (fun m => decide (m.chatId = chatId))

/-- `clearMessages` (lines 61-64). -/
def clearMessages (s : State) (chatId : String) : State :=
  match s.MessageModel with
  | some coll => { s with MessageModel := some (deleteMany coll chatId) }
  | none =>
    { s with inMemoryMessages :=
        s.inMemoryMessages.filter (fun m => decide (m.chatId ≠ chatId)) }

/-! ## Handlers (lines 67-110) -/

/-- The expression `x || d` for a string field that may be missing:
`undefined` and the empty string are falsy. -/
def orDefault (x : Option String) (d : String) : String :=
  match x with
  | none => d
  | some v => if v = "" then d else v

/-- The object literal of lines 77-83, repeated at lines 96-102. -/
def buildMessage (clk : Clock) (data : Payload) : Message :=
  { chatId := data.chatId
    sender := data.sender
    text := data.text
    time := orDefault data.time clk.localHHMM
    createdAt := some clk.now }

/-- Addressing of an emission: `io.to(room)` reaches every socket of the room,
`socket.to(room)` every socket of the room but `socket` itself. -/
inductive Target where
  | room (chatId : String)
  | roomExcept (chatId : String) (socket : SocketId)
deriving DecidableEq, Repr

/-- An argument passed to `emit` after the event name. -/
inductive Arg where
  | message (m : Message)
  | typing (d : TypingData)
  | str (v : String)
deriving DecidableEq, Repr

/-- One call of `emit`: addressing, event name, arguments. -/
structure Emission where
  target : Target
  event : String
  args : List Arg
deriving DecidableEq, Repr

/-- The sockets an emission is delivered to, given the room membership. -/
def recipients (rooms : List (SocketId × String)) : Target → List SocketId
  | Target.room chatId =>
    (rooms.filter (fun p => decide (p.2 = chatId))).map Prod.fst
  | Target.roomExcept chatId socket =>
    (rooms.filter (fun p => decide (p.2 = chatId) && decide (p.1 ≠ socket))).map Prod.fst

/-- The body of a successful response of the request/response surface.  The
500 responses of the `catch` blocks answer a rejected storage call, which the
model does not contain. -/
inductive Response where
  | message (m : Message)
  | messages (ms : List Message)
deriving DecidableEq, Repr

/-- Handler of `GET /messages/:chatId` (lines 67-74). -/
def getMessagesRoute (s : State) (chatId : String) : Response :=
  Response.messages (getMessages s chatId)

/-- Handler of `POST /messages` (lines 75-89). -/
def postMessages (clk : Clock) (s : State) (body : Payload) : State × Response :=
  let message := buildMessage clk body
  let r := saveMessage clk s message
  (r.1, Response.message r.2)

/-- Handler of `join_chat` (line 94): `socket.join(chatId)`. -/
def join_chat (socket : SocketId) (s : State) (chatId : String) : State :=
  if (socket, chatId) ∈ s.rooms then s
  else { s with rooms := s.rooms ++ [(socket, chatId)] }

/-- Handler of `send_message` (lines 95-105). -/
def send_message (clk : Clock) (s : State) (data : Payload) : State × List Emission :=
  let message := buildMessage clk data
  let r := saveMessage clk s message
  (r.1, [{ target := Target.room data.chatId, event := "new_message",
           args := [Arg.message r.2] }])

/-- Handler of `typing` (line 106), on the connection `socket`. -/
def typing (socket : SocketId) (s : State) (data : TypingData) : State × List Emission :=
  (s, [{ target := Target.roomExcept data.chatId socket, event := "user_typing",
         args := [Arg.typing data] }])

/-- Handler of `clear_chat` (lines 107-110). -/
def clear_chat (s : State) (chatId : String) : State × List Emission :=
  (clearMessages s chatId,
   [{ target := Target.room chatId, event := "chat_cleared", args := [] }])

/-! ## Runs -/

/-- An inbound event that reaches the message store: `POST /messages`,
`send_message` and `clear_chat`, the first two with the clock they read. -/
inductive Event where
  | post (clk : Clock) (body : Payload)
  | send_message (clk : Clock) (data : Payload)
  | clear_chat (chatId : String)
deriving DecidableEq, Repr

/-- The state after the handler of an event has run. -/
def Event.apply (s : State) : Event → State
  | Event.post clk body => (WebCaht.postMessages clk s body).1
  | Event.send_message clk data => (WebCaht.send_message clk s data).1
  | Event.clear_chat chatId => (WebCaht.clear_chat s chatId).1

/-- The state after a sequence of events, handled in order. -/
def run (s : State) (events : List Event) : State :=
  events.foldl Event.apply s

/-- The value of `new Date()` an event reads, if it reads the clock. -/
def Event.clockReading : Event → Option Nat
  | Event.post clk _ => some clk.now
  | Event.send_message clk _ => some clk.now
  | Event.clear_chat _ => none

/-- The successive values of `new Date()` read during a sequence of events. -/
def clockReadings (events : List Event) : List Nat :=
  events.filterMap Event.clockReading

/-- Both messages carry a creation timestamp and the first is not later than
the second. -/
def createdAtLe (a b : Message) : Prop :=
  match a.createdAt, b.createdAt with
  | some x, some y => x ≤ y
  | _, _ => False

instance (a b : Message) : Decidable (createdAtLe a b) := by
  unfold createdAtLe
  split <;> infer_instance

/-- A sequence of messages is in ascending order of `createdAt`. -/
def OrderedByCreatedAt (ms : List Message) : Prop :=
  ms.Pairwise createdAtLe

/-- The state after saving a sequence of messages, one `saveMessage` call
after the other. -/
def saveAll (s : State) (ms : List (Clock × Message)) : State :=
  ms.foldl (fun st p => (saveMessage p.1 st p.2).1) s

/-- The storage variant an operation uses: decided by the test
`if (MessageModel)` at the head of each helper. -/
inductive Variant where
  | volatile
  | durable
deriving DecidableEq, Repr

/-- The variant the helpers use in a given state. -/
def State.variant (s : State) : Variant :=
  match s.MessageModel with
  | some _ => Variant.durable
  | none => Variant.volatile

/-- A step of a run of the storage layer: a call of one of the three helpers,
or the completion of the `connectDatabase()` call of line 49 (which is not
awaited, so the server may have served operations before it completes). -/
inductive Step where
  | saveMessage (clk : Clock) (message : Message)
  | getMessages (chatId : String)
  | clearMessages (chatId : String)
  | connectDatabase (MONGODB_URI : Option String) (outcome : Option (List Doc))

/-- What a step lets one observe: the variant it used and its result. -/
inductive Observation where
  | saved (v : Variant) (m : Message)
  | listed (v : Variant) (ms : List Message)
  | cleared (v : Variant)
  | connected
deriving DecidableEq, Repr

/-- Execution of one step. -/
def Step.exec (s : State) : Step → State × Observation
  | Step.saveMessage clk message =>
    ((WebCaht.saveMessage clk s message).1,
      Observation.saved s.variant (WebCaht.saveMessage clk s message).2)
  | Step.getMessages chatId =>
    (s, Observation.listed s.variant (WebCaht.getMessages s chatId))
  | Step.clearMessages chatId =>
    (WebCaht.clearMessages s chatId, Observation.cleared s.variant)
  | Step.connectDatabase uri outcome =>
    (WebCaht.connectDatabase uri (fun _ => outcome) s, Observation.connected)

/-- Execution of a sequence of steps, with the observations in order. -/
def execSteps (s : State) : List Step → State × List Observation
  | [] => (s, [])
  | step :: rest =>
    let r := Step.exec s step
    let r2 := execSteps r.1 rest
    (r2.1, r.2 :: r2.2)

/-- The store holds no message: the in-memory array is empty, and so is the
collection when the model exists. -/
def State.storeEmpty (s : State) : Prop :=
  s.inMemoryMessages = [] ∧ ∀ coll, s.MessageModel = some coll → coll = []

/-- Invariant of the in-memory array along a run: it is ordered by `createdAt`
and none of its timestamps is later than a clock reading still to come. -/
def VolatileInv (s : State) (events : List Event) : Prop :=
  s.MessageModel = none ∧
  s.inMemoryMessages.Pairwise createdAtLe ∧
  ∀ m ∈ s.inMemoryMessages, ∃ t, m.createdAt = some t ∧ ∀ c ∈ clockReadings events, t ≤ c

/-! ## Auxiliary lemmas -/

theorem findSorted_perm (coll : List Doc) (r : String) :
    (findSorted coll r).Perm (coll.filter (fun d => decide (d.chatId = r))) :=
  List.perm_insertionSort _ _

theorem findSorted_deleteMany (coll : List Doc) (r : String) :
    findSorted (deleteMany coll r) r = [] := by
  have h : (deleteMany coll r).filter (fun d => decide (d.chatId = r)) = [] := by
    simp [deleteMany, List.filter_filter]
  simp [findSorted, h]

theorem findSorted_append_other (coll : List Doc) (d : Doc) (r : String) (h : d.chatId ≠ r) :
    findSorted (coll ++ [d]) r = findSorted coll r := by
  simp [findSorted, List.filter_append, h]

theorem findSorted_sorted (coll : List Doc) (r : String) :
    (findSorted coll r).Pairwise (fun a b => a.createdAt ≤ b.createdAt) := by
  haveI : IsTotal Doc (fun a b => a.createdAt ≤ b.createdAt) :=
    ⟨fun a b => Nat.le_total a.createdAt b.createdAt⟩
  haveI : IsTrans Doc (fun a b => a.createdAt ≤ b.createdAt) :=
    ⟨fun _ _ _ hab hbc => Nat.le_trans hab hbc⟩
  exact List.sorted_insertionSort (fun a b : Doc => a.createdAt ≤ b.createdAt)
    (coll.filter (fun d => decide (d.chatId = r)))

theorem saveMessage_volatile (clk : Clock) (s : State) (m : Message)
    (h : s.MessageModel = none) :
    saveMessage clk s m = ({ s with inMemoryMessages := s.inMemoryMessages ++ [m] }, m) := by
  simp [saveMessage, h]

theorem saveMessage_keeps_model_none (clk : Clock) (s : State) (m : Message)
    (h : s.MessageModel = none) : (saveMessage clk s m).1.MessageModel = none := by
  simp [saveMessage, h]

theorem saveAll_volatile (ms : List (Clock × Message)) (s : State)
    (h : s.MessageModel = none) :
    saveAll s ms =
      { s with inMemoryMessages := s.inMemoryMessages ++ ms.map Prod.snd } := by
  induction ms generalizing s with
  | nil => simp [saveAll]
  | cons p rest ih =>
    have h1 := saveMessage_keeps_model_none p.1 s p.2 h
    have h2 := ih (saveMessage p.1 s p.2).1 h1
    simp only [saveAll, List.foldl_cons] at h2 ⊢
    rw [h2, saveMessage_volatile p.1 s p.2 h]
    simp

theorem mem_recipients_room (rooms : List (SocketId × String)) (r : String) (x : SocketId) :
    x ∈ recipients rooms (Target.room r) ↔ (x, r) ∈ rooms := by
  simp only [recipients, List.mem_map, List.mem_filter, decide_eq_true_eq]
  constructor
  · rintro ⟨⟨a, b⟩, ⟨hmem, hb⟩, ha⟩
    simp only at hb ha
    subst hb; subst ha
    exact hmem
  · intro h
    exact ⟨(x, r), ⟨h, rfl⟩, rfl⟩

theorem mem_recipients_roomExcept (rooms : List (SocketId × String)) (r : String)
    (sock x : SocketId) :
    x ∈ recipients rooms (Target.roomExcept r sock) ↔ ((x, r) ∈ rooms ∧ x ≠ sock) := by
  simp only [recipients, List.mem_map, List.mem_filter, Bool.and_eq_true, decide_eq_true_eq]
  constructor
  · rintro ⟨⟨a, b⟩, ⟨hmem, hb, hne⟩, ha⟩
    simp only at hb ha hne
    subst hb; subst ha
    exact ⟨hmem, hne⟩
  · rintro ⟨h, hne⟩
    exact ⟨(x, r), ⟨h, rfl, hne⟩, rfl⟩

theorem volatileInv_step (s : State) (e : Event) (rest : List Event)
    (hclk : (clockReadings (e :: rest)).Pairwise (fun a b => a ≤ b))
    (hinv : VolatileInv s (e :: rest)) : VolatileInv (e.apply s) rest := by
  obtain ⟨hM, hsorted, hbound⟩ := hinv
  have hsave : ∀ (clk : Clock) (data : Payload),
      clockReadings (e :: rest) = clk.now :: clockReadings rest →
      VolatileInv (saveMessage clk s (buildMessage clk data)).1 rest := by
    intro clk data hre
    rw [hre] at hclk
    rw [saveMessage_volatile clk s _ hM]
    refine ⟨hM, ?_, ?_⟩
    · rw [List.pairwise_append]
      refine ⟨hsorted, List.pairwise_singleton _ _, ?_⟩
      intro a ha b hb
      rw [List.mem_singleton] at hb
      subst hb
      obtain ⟨t, ht, hle⟩ := hbound a ha
      have : t ≤ clk.now := hle clk.now (by rw [hre]; exact List.mem_cons_self _ _)
      simpa [createdAtLe, ht, buildMessage] using this
    · intro m hm
      rcases List.mem_append.1 hm with hm | hm
      · obtain ⟨t, ht, hle⟩ := hbound m hm
        exact ⟨t, ht, fun c hc => hle c (by rw [hre]; exact List.mem_cons_of_mem _ hc)⟩
      · rw [List.mem_singleton] at hm
        subst hm
        exact ⟨clk.now, rfl, fun c hc => List.rel_of_pairwise_cons hclk hc⟩
  cases e with
  | post clk body => exact hsave clk body rfl
  | send_message clk data => exact hsave clk data rfl
  | clear_chat chatId =>
    have hre : clockReadings (Event.clear_chat chatId :: rest) = clockReadings rest := rfl
    simp only [Event.apply, clear_chat, clearMessages, hM]
    refine ⟨rfl, List.Pairwise.sublist (List.filter_sublist _) hsorted, ?_⟩
    intro m hm
    obtain ⟨t, ht, hle⟩ := hbound m (List.mem_of_mem_filter hm)
    exact ⟨t, ht, fun c hc => hle c (by rw [hre]; exact hc)⟩

theorem volatileInv_run (events : List Event) (s : State)
    (hclk : (clockReadings events).Pairwise (fun a b => a ≤ b))
    (hinv : VolatileInv s events) : VolatileInv (run s events) [] := by
  induction events generalizing s with
  | nil => exact hinv
  | cons e rest ih =>
    have hstep := volatileInv_step s e rest hclk hinv
    have hrest : (clockReadings rest).Pairwise (fun a b => a ≤ b) := by
      cases e with
      | post clk body => exact (List.pairwise_cons.1 hclk).2
      | send_message clk data => exact (List.pairwise_cons.1 hclk).2
      | clear_chat chatId => exact hclk
    exact ih (e.apply s) hrest hstep

theorem apply_model_some (s : State) (e : Event) (coll : List Doc)
    (h : s.MessageModel = some coll) : ∃ coll2, (e.apply s).MessageModel = some coll2 := by
  cases e <;>
    simp [Event.apply, postMessages, send_message, clear_chat, saveMessage, clearMessages, h]

theorem run_model_some (events : List Event) (s : State) (coll : List Doc)
    (h : s.MessageModel = some coll) : ∃ coll2, (run s events).MessageModel = some coll2 := by
  induction events generalizing s coll with
  | nil => exact ⟨coll, h⟩
  | cons e rest ih =>
    obtain ⟨c2, hc2⟩ := apply_model_some s e coll h
    exact ih (e.apply s) c2 hc2

theorem getMessages_durable_ordered (s : State) (coll : List Doc) (r : String)
    (h : s.MessageModel = some coll) :
    OrderedByCreatedAt (getMessages s r) ∧ ∀ m ∈ getMessages s r, m.createdAt ≠ none := by
  constructor
  · simp only [OrderedByCreatedAt, getMessages, h, List.pairwise_map]
    exact (findSorted_sorted coll r).imp (fun hab => by simpa [createdAtLe, Doc.toMessage] using hab)
  · intro m hm
    simp only [getMessages, h, List.mem_map] at hm
    obtain ⟨d, _, rfl⟩ := hm
    simp [Doc.toMessage]

/-! ## Properties -/

/-- C1. Volatile variant: after `clearMessages(r)`, `getMessages(r)` is the
empty sequence, whatever the store held before. -/
theorem getMessages_clearMessages_volatile (s : State) (r : String)
    (h : s.MessageModel = none) :
    getMessages (clearMessages s r) r = [] := by
  simp [getMessages, clearMessages, h, List.filter_filter]

/-- Witness of C1: a store with messages in two rooms. -/
theorem getMessages_clearMessages_volatile_witness :
    getMessages
      (clearMessages
        { MessageModel := none,
          inMemoryMessages :=
            [⟨"r1", "a", "hi", "10:00", some 1⟩, ⟨"r2", "b", "yo", "10:01", some 2⟩,
             ⟨"r1", "c", "ok", "10:02", some 3⟩],
          rooms := [] } "r1") "r1" = [] :=
  getMessages_clearMessages_volatile _ "r1" rfl

/-- C2. Volatile variant: `getMessages(r)` after `saveMessage(m)`, for a message
of room `r`, is `getMessages(r)` before the save followed by the record that
`saveMessage` returned; and after saving a sequence of messages of room `r`
one after the other, `getMessages(r)` is the former result followed by these
messages in the order they were saved. -/
theorem getMessages_saveMessage_volatile (s : State) (r : String)
    (h : s.MessageModel = none) :
    (∀ (clk : Clock) (m : Message), m.chatId = r →
      getMessages (saveMessage clk s m).1 r
        = getMessages s r ++ [(saveMessage clk s m).2]) ∧
    (∀ ms : List (Clock × Message), (∀ p ∈ ms, p.2.chatId = r) →
      getMessages (saveAll s ms) r = getMessages s r ++ ms.map Prod.snd) := by
  constructor
  · intro clk m hm
    simp [saveMessage, getMessages, h, List.filter_append, hm]
  · intro ms hms
    rw [saveAll_volatile ms s h]
    have hall : (ms.map Prod.snd).filter (fun m => decide (m.chatId = r)) = ms.map Prod.snd := by
      rw [List.filter_eq_self]
      intro m hm
      obtain ⟨p, hp, rfl⟩ := List.mem_map.1 hm
      simpa using hms p hp
    simp [getMessages, h, List.filter_append, hall]

/-- Witness of C2: three messages saved to room `r1` of a store that already
holds a message of `r1` and one of `r2`. -/
theorem getMessages_saveMessage_volatile_witness :
    getMessages
      (saveAll
        { MessageModel := none,
          inMemoryMessages :=
            [⟨"r1", "a", "hi", "10:00", some 1⟩, ⟨"r2", "b", "yo", "10:01", some 2⟩],
          rooms := [] }
        [(⟨5, "10:05"⟩, ⟨"r1", "a", "one", "10:05", some 5⟩),
         (⟨5, "10:05"⟩, ⟨"r1", "a", "two", "10:05", some 5⟩),
         (⟨6, "10:05"⟩, ⟨"r1", "a", "three", "10:05", some 6⟩)]) "r1"
      = getMessages
          { MessageModel := none,
            inMemoryMessages :=
              [⟨"r1", "a", "hi", "10:00", some 1⟩, ⟨"r2", "b", "yo", "10:01", some 2⟩],
            rooms := [] } "r1"
        ++ [⟨"r1", "a", "one", "10:05", some 5⟩, ⟨"r1", "a", "two", "10:05", some 5⟩,
            ⟨"r1", "a", "three", "10:05", some 6⟩] :=
  (getMessages_saveMessage_volatile _ "r1" rfl).2 _ (by simp)

/-- C3. Isolation: a `send_message` event for room `A` leaves `getMessages(B)`
unchanged for every other room `B`, and produces exactly one emission,
`new_message` with the stored record, addressed to room `A`; a socket that has
not joined `A` (one subscribed only to `B`) is not among its recipients. -/
theorem send_message_isolation (clk : Clock) (s : State) (data : Payload) (B : String)
    (hAB : data.chatId ≠ B) :
    getMessages (send_message clk s data).1 B = getMessages s B ∧
    (send_message clk s data).2 =
      [{ target := Target.room data.chatId, event := "new_message",
         args := [Arg.message (saveMessage clk s (buildMessage clk data)).2] }] ∧
    (∀ e ∈ (send_message clk s data).2, ∀ x : SocketId,
      (x, data.chatId) ∉ (send_message clk s data).1.rooms →
        x ∉ recipients (send_message clk s data).1.rooms e.target) := by
  refine ⟨?_, rfl, ?_⟩
  · cases hM : s.MessageModel with
    | none =>
      simp [send_message, saveMessage, getMessages, hM, List.filter_append, buildMessage, hAB]
    | some coll =>
      have hd : (Doc.create clk (buildMessage clk data)).chatId ≠ B := by
        simpa [Doc.create, buildMessage] using hAB
      simp [send_message, saveMessage, getMessages, hM, findSorted_append_other _ _ _ hd]
  · intro e he x hx
    simp only [send_message, List.mem_singleton] at he
    subst he
    simpa [mem_recipients_room] using hx

/-- Witness of C3: a message for `r1` while socket 2 has joined only `r2`. -/
theorem send_message_isolation_witness :
    getMessages
      (send_message ⟨7, "10:07"⟩
        { MessageModel := none,
          inMemoryMessages := [⟨"r2", "b", "yo", "10:01", some 2⟩],
          rooms := [(1, "r1"), (2, "r2")] } ⟨"r1", "a", "hi", none⟩).1 "r2"
      = getMessages
          { MessageModel := none,
            inMemoryMessages := [⟨"r2", "b", "yo", "10:01", some 2⟩],
            rooms := [(1, "r1"), (2, "r2")] } "r2" :=
  (send_message_isolation ⟨7, "10:07"⟩ _ ⟨"r1", "a", "hi", none⟩ "r2" (by decide)).1

/-- C8. The `typing` handler on connection `sock` leaves the state, hence
every `getMessages(r)`, unchanged and produces exactly one emission:
`user_typing` carrying the payload as received, addressed to room
`d.chatId` except `sock`; its recipients are the sockets that have joined
that room, `sock` excluded. -/
theorem typing_frame (sock : SocketId) (s : State) (d : TypingData) :
    (typing sock s d).1 = s ∧
    (∀ r, getMessages (typing sock s d).1 r = getMessages s r) ∧
    (typing sock s d).2 =
      [{ target := Target.roomExcept d.chatId sock, event := "user_typing",
         args := [Arg.typing d] }] ∧
    (∀ x : SocketId, x ∈ recipients s.rooms (Target.roomExcept d.chatId sock) ↔
      ((x, d.chatId) ∈ s.rooms ∧ x ≠ sock)) :=
  ⟨rfl, fun _ => rfl, rfl, fun x => mem_recipients_roomExcept s.rooms d.chatId sock x⟩

/-- C9. `clearMessages` is idempotent: clearing room `r` twice gives the same
state as clearing it once, and clearing a room of which the store holds no
message (`getMessages(r)` is empty) leaves the state unchanged. -/
theorem clearMessages_idempotent (s : State) (r : String) :
    clearMessages (clearMessages s r) r = clearMessages s r ∧
    (getMessages s r = [] → clearMessages s r = s) := by
  cases hM : s.MessageModel with
  | none =>
    constructor
    · simp [clearMessages, hM, List.filter_filter]
    · intro h
      simp only [getMessages, hM, List.filter_eq_nil_iff, decide_eq_true_eq] at h
      have hf : s.inMemoryMessages.filter (fun m => decide (m.chatId ≠ r))
          = s.inMemoryMessages := by
        rw [List.filter_eq_self]
        intro m hm
        simpa using h m hm
      cases s
      simp_all [clearMessages]
  | some coll =>
    constructor
    · simp [clearMessages, hM, deleteMany, List.filter_filter]
    · intro h
      simp only [getMessages, hM, List.map_eq_nil_iff] at h
      have hp := findSorted_perm coll r
      rw [h] at hp
      have hnil := List.Perm.eq_nil (List.Perm.symm hp)
      rw [List.filter_eq_nil_iff] at hnil
      have hf : deleteMany coll r = coll := by
        unfold deleteMany
        rw [List.filter_eq_self]
        intro d hd
        simpa using hnil d hd
      cases s
      simp_all [clearMessages]

/-- Witness of C9: a store without any message of `r3`. -/
theorem clearMessages_idempotent_witness :
    clearMessages
      { MessageModel := none,
        inMemoryMessages := [⟨"r1", "a", "hi", "10:00", some 1⟩],
        rooms := [] } "r3"
      = { MessageModel := none,
          inMemoryMessages := [⟨"r1", "a", "hi", "10:00", some 1⟩],
          rooms := [] } :=
  (clearMessages_idempotent _ "r3").2 (by decide)

/-- Ordering under a well-behaved clock.  Starting from an empty store, after
any sequence of `POST /messages`, `send_message` and `clear_chat` events whose
successive `new Date()` readings do not decrease, `getMessages(r)` is in
ascending order of `createdAt` for every room `r`, and every message it
returns carries a `createdAt`.  The in-memory branch owes this to the order of
insertion alone, the durable branch to its `sort`. -/
theorem getMessages_ordered_of_run (s0 : State) (events : List Event) (r : String)
    (hempty : s0.storeEmpty)
    (hclk : (clockReadings events).Pairwise (fun a b => a ≤ b)) :
    OrderedByCreatedAt (getMessages (run s0 events) r) ∧
    ∀ m ∈ getMessages (run s0 events) r, m.createdAt ≠ none := by
  cases hM : s0.MessageModel with
  | some coll =>
    obtain ⟨c2, hc2⟩ := run_model_some events s0 coll hM
    exact getMessages_durable_ordered _ c2 r hc2
  | none =>
    have hinv : VolatileInv s0 events := by
      refine ⟨hM, ?_, ?_⟩
      · rw [hempty.1]; exact List.Pairwise.nil
      · intro m hm
        rw [hempty.1] at hm
        cases hm
    obtain ⟨hM2, hsorted, hbound⟩ := volatileInv_run events s0 hclk hinv
    constructor
    · simp only [OrderedByCreatedAt, getMessages, hM2]
      exact List.Pairwise.sublist (List.filter_sublist _) hsorted
    · intro m hm
      simp only [getMessages, hM2] at hm
      obtain ⟨t, ht, _⟩ := hbound m (List.mem_of_mem_filter hm)
      simp [ht]

/-- An instance of the above: two posts, a clear of another room and a socket message,
with clock readings 5, 5 and 9. -/
theorem getMessages_ordered_of_run_witness :
    OrderedByCreatedAt
      (getMessages
        (run State.initial
          [Event.post ⟨5, "10:05"⟩ ⟨"r1", "a", "one", none⟩,
           Event.post ⟨5, "10:05"⟩ ⟨"r1", "b", "two", some "09:00"⟩,
           Event.clear_chat "r2",
           Event.send_message ⟨9, "10:06"⟩ ⟨"r1", "a", "three", none⟩]) "r1") :=
  (getMessages_ordered_of_run State.initial _ "r1" ⟨rfl, fun _ h => by cases h⟩
    (by decide)).1

/-- C5, the failing input. `saveMessage` is given a message without
`createdAt`.  With the model absent (in-memory branch, lines 54-55) the record
returned and the record appended both lack `createdAt`; with the model present
(line 53) the same call returns and stores a record stamped by the schema
default. -/
theorem saveMessage_volatile_assigns_nothing :
    (⟨"r1", "a", "hi", "10:00", none⟩ : Message).createdAt = none ∧
    (saveMessage ⟨5, "10:05"⟩ State.initial ⟨"r1", "a", "hi", "10:00", none⟩).2.createdAt
      = none ∧
    (saveMessage ⟨5, "10:05"⟩ State.initial
      ⟨"r1", "a", "hi", "10:00", none⟩).1.inMemoryMessages
      = [⟨"r1", "a", "hi", "10:00", none⟩] ∧
    (saveMessage ⟨5, "10:05"⟩ { MessageModel := some [], inMemoryMessages := [], rooms := [] }
      ⟨"r1", "a", "hi", "10:00", none⟩).2.createdAt = some 5 ∧
    (saveMessage ⟨5, "10:05"⟩ { MessageModel := some [], inMemoryMessages := [], rooms := [] }
      ⟨"r1", "a", "hi", "10:00", none⟩).1.MessageModel
      = some [⟨"r1", "a", "hi", "10:00", 5⟩] := by
  decide

/-- What `saveMessage` does to `createdAt`, branch by branch.  In the volatile
variant it returns and appends the message it is given, unchanged.  In the
durable variant the stored record has a `createdAt` (the one given, or the
clock when none is given) and its other fields equal those of the message.
The message a handler builds always has `createdAt` set to the clock. -/
theorem saveMessage_createdAt (clk : Clock) (s : State) (m : Message) :
    (s.MessageModel = none →
      (saveMessage clk s m).2 = m ∧
      (saveMessage clk s m).1.inMemoryMessages = s.inMemoryMessages ++ [m]) ∧
    (∀ coll, s.MessageModel = some coll →
      (saveMessage clk s m).1.MessageModel = some (coll ++ [Doc.create clk m]) ∧
      (saveMessage clk s m).2 = (Doc.create clk m).toMessage ∧
      (saveMessage clk s m).2.createdAt = some (m.createdAt.getD clk.now) ∧
      (saveMessage clk s m).2.chatId = m.chatId ∧
      (saveMessage clk s m).2.sender = m.sender ∧
      (saveMessage clk s m).2.text = m.text ∧
      (saveMessage clk s m).2.time = m.time) ∧
    (∀ data : Payload, (buildMessage clk data).createdAt = some clk.now) := by
  refine ⟨?_, ?_, fun _ => rfl⟩
  · intro h
    simp [saveMessage, h]
  · intro coll h
    simp [saveMessage, h, Doc.create, Doc.toMessage]

/-- An instance of the above: a message saved to a volatile store comes back as
it was given. -/
theorem saveMessage_createdAt_witness :
    (saveMessage ⟨5, "10:05"⟩ State.initial ⟨"r1", "a", "hi", "10:00", none⟩).2
      = ⟨"r1", "a", "hi", "10:00", none⟩ :=
  ((saveMessage_createdAt ⟨5, "10:05"⟩ State.initial
    ⟨"r1", "a", "hi", "10:00", none⟩).1 rfl).1

/-- C6, counterexample. The `chat_cleared` emission of `clear_chat` for room
`r1` carries no argument, so its payload is not the room id. -/
theorem clear_chat_payload_not_room :
    (clear_chat
      { MessageModel := none,
        inMemoryMessages := [⟨"r1", "a", "hi", "10:00", some 1⟩],
        rooms := [(1, "r1"), (2, "r1")] } "r1").2
      = [{ target := Target.room "r1", event := "chat_cleared", args := [] }] ∧
    ∀ e ∈ (clear_chat
      { MessageModel := none,
        inMemoryMessages := [⟨"r1", "a", "hi", "10:00", some 1⟩],
        rooms := [(1, "r1"), (2, "r1")] } "r1").2, e.args ≠ [Arg.str "r1"] := by
  decide

/-- C6, amended. The `clear_chat` handler removes every message of room `r`
(afterwards `getMessages(r)` is empty), leaves the membership untouched and
emits exactly one `chat_cleared` event, without payload, addressed to room
`r`: its recipients are all sockets that have joined `r`, the issuer
included when it has joined. -/
theorem clear_chat_effect (s : State) (r : String) :
    getMessages (clear_chat s r).1 r = [] ∧
    (clear_chat s r).1.rooms = s.rooms ∧
    (clear_chat s r).2 = [{ target := Target.room r, event := "chat_cleared", args := [] }] ∧
    (∀ x : SocketId, x ∈ recipients (clear_chat s r).1.rooms (Target.room r) ↔
      (x, r) ∈ s.rooms) := by
  have hrooms : (clear_chat s r).1.rooms = s.rooms := by
    cases hM : s.MessageModel <;> simp [clear_chat, clearMessages, hM]
  refine ⟨?_, hrooms, rfl, ?_⟩
  · cases hM : s.MessageModel with
    | none => simp [clear_chat, clearMessages, getMessages, hM, List.filter_filter]
    | some coll =>
      simp [clear_chat, clearMessages, getMessages, hM, findSorted_deleteMany]
  · intro x
    rw [hrooms]
    exact mem_recipients_room s.rooms r x

/-- C7, counterexample. A payload whose `time` is the empty string: both
handlers build a message whose `time` is the server's local time, not the
supplied string. -/
theorem empty_time_is_replaced :
    (postMessages ⟨5, "10:30"⟩ State.initial ⟨"r1", "a", "hi", some ""⟩).2
      = Response.message ⟨"r1", "a", "hi", "10:30", some 5⟩ ∧
    (send_message ⟨5, "10:30"⟩ State.initial ⟨"r1", "a", "hi", some ""⟩).2
      = [{ target := Target.room "r1", event := "new_message",
           args := [Arg.message ⟨"r1", "a", "hi", "10:30", some 5⟩] }] ∧
    (buildMessage ⟨5, "10:30"⟩ ⟨"r1", "a", "hi", some ""⟩).time ≠ "" := by
  decide

/-- C7, amended. Both handlers pass `buildMessage clk data` to `saveMessage`;
its `chatId`, `sender` and `text` are those of the payload; its `time` is the
supplied string when one is supplied and is not empty, and the server's local
HH:MM when the field is omitted or is the empty string. -/
theorem handler_message_fields (clk : Clock) (s : State) (data : Payload) :
    postMessages clk s data
      = ((saveMessage clk s (buildMessage clk data)).1,
         Response.message (saveMessage clk s (buildMessage clk data)).2) ∧
    send_message clk s data
      = ((saveMessage clk s (buildMessage clk data)).1,
         [{ target := Target.room data.chatId, event := "new_message",
            args := [Arg.message (saveMessage clk s (buildMessage clk data)).2] }]) ∧
    (buildMessage clk data).chatId = data.chatId ∧
    (buildMessage clk data).sender = data.sender ∧
    (buildMessage clk data).text = data.text ∧
    (∀ t, data.time = some t → t ≠ "" → (buildMessage clk data).time = t) ∧
    (data.time = none ∨ data.time = some "" →
      (buildMessage clk data).time = clk.localHHMM) := by
  refine ⟨rfl, rfl, rfl, rfl, rfl, ?_, ?_⟩
  · intro t ht hne
    simp [buildMessage, orDefault, ht, hne]
  · rintro (h | h) <;> simp [buildMessage, orDefault, h]

/-- Witness of C7 (amended): a supplied, non-empty `time` is kept. -/
theorem handler_message_fields_witness :
    (buildMessage ⟨5, "10:30"⟩ ⟨"r1", "a", "hi", some "09:15"⟩).time = "09:15" :=
  (handler_message_fields ⟨5, "10:30"⟩ State.initial
    ⟨"r1", "a", "hi", some "09:15"⟩).2.2.2.2.2.1 "09:15" rfl (by decide)

/-- C10, the failing run. With `MONGODB_URI` set, a `saveMessage` served before
`connectDatabase` completes uses the volatile variant; once the connection
succeeds, `getMessages` uses the durable variant and does not return the
message that was accepted, although its room was never cleared. -/
theorem variant_changes_after_connect :
    (execSteps State.initial
      [Step.saveMessage ⟨5, "10:05"⟩ ⟨"r1", "a", "hi", "10:05", some 5⟩,
       Step.connectDatabase (some "mongodb://db/chat") (some []),
       Step.getMessages "r1"]).2
      = [Observation.saved Variant.volatile ⟨"r1", "a", "hi", "10:05", some 5⟩,
         Observation.connected,
         Observation.listed Variant.durable []] := by
  decide

/-- C4, the failing run. Two `POST /messages` for room `r1` on the in-memory
store, the system clock reading 9 at the first and 5 at the second (a wall
clock that was set back in between).  `getMessages("r1")` returns the two
records in insertion order, stamped 9 then 5, which is not ascending order of
`createdAt`; the same run on the durable store returns them stamped 5 then 9,
because line 58 sorts and line 59 does not. -/
theorem getMessages_volatile_not_ordered :
    State.initial.storeEmpty ∧
    getMessages
      (run State.initial
        [Event.post ⟨9, "10:05"⟩ ⟨"r1", "a", "one", none⟩,
         Event.post ⟨5, "10:05"⟩ ⟨"r1", "a", "two", none⟩]) "r1"
      = [⟨"r1", "a", "one", "10:05", some 9⟩, ⟨"r1", "a", "two", "10:05", some 5⟩] ∧
    ¬ OrderedByCreatedAt
      (getMessages
        (run State.initial
          [Event.post ⟨9, "10:05"⟩ ⟨"r1", "a", "one", none⟩,
           Event.post ⟨5, "10:05"⟩ ⟨"r1", "a", "two", none⟩]) "r1") ∧
    getMessages
      (run { MessageModel := some [], inMemoryMessages := [], rooms := [] }
        [Event.post ⟨9, "10:05"⟩ ⟨"r1", "a", "one", none⟩,
         Event.post ⟨5, "10:05"⟩ ⟨"r1", "a", "two", none⟩]) "r1"
      = [⟨"r1", "a", "two", "10:05", some 5⟩, ⟨"r1", "a", "one", "10:05", some 9⟩] := by
  refine ⟨⟨rfl, fun _ h => by cases h⟩, by decide, ?_, by decide⟩
  have h : getMessages
      (run State.initial
        [Event.post ⟨9, "10:05"⟩ ⟨"r1", "a", "one", none⟩,
         Event.post ⟨5, "10:05"⟩ ⟨"r1", "a", "two", none⟩]) "r1"
      = [⟨"r1", "a", "one", "10:05", some 9⟩, ⟨"r1", "a", "two", "10:05", some 5⟩] := by
    decide
  rw [h]
  simp [OrderedByCreatedAt, createdAtLe]

end WebCaht
